import Mathlib

/-!
Verification of the polytope-building engine in `polytopes/models.py`.

The Python module builds uniform polytopes by Wythoff's construction:
a `BasePolytope` holds a Coxeter matrix, the per-mirror "active" flags,
reflection transforms and an initial vertex, and enumerates vertex,
edge and face orbits by repeatedly invoking an external coset
enumerator (Todd-Coxeter).  The enumerator, and the helper functions
building mirrors and reflection matrices from a Coxeter diagram, are
external collaborators; here they appear as parameters of the state
(function-valued fields), while every algorithm of `models.py` itself
is embedded as an executable Lean function over that state.
-/

namespace Polytopes

/-- State of a `BasePolytope` after construction (and after the vertex
action table has been built).  `n` is the number of generators
(`symmetry_gens = tuple(range(len(coxeter_matrix)))` in the source),
`coxeter_matrix`, `active`, `reflections` and `init_v` are the fields
set in `BasePolytope.__init__`; `vtable` is the coset action table
`(vertex, generator) -> vertex` produced by the external enumerator in
`get_vertices`, and `cosetWords` models the external coset enumerator:
given (generators, relations, subgroup generators) it returns the list
of coset representative words (`CosetTable(...).run(); get_words()`). -/
structure BasePolytope (V : Type) where
  n : Nat
  coxeter_matrix : Nat → Nat → Nat
  symmetry_rels : List (List Nat)
  active : Nat → Bool
  reflections : Nat → V → V
  init_v : V
  vtable : Nat → Nat → Nat
  cosetWords : List Nat → List (List Nat) → List (List Nat) → List (List Nat)

/-- `self.symmetry_gens = tuple(range(len(self.coxeter_matrix)))`. -/
def symmetry_gens {V : Type} (P : BasePolytope V) : List Nat :=
  List.range P.n

/-- `BasePolytope.transform`: apply each generator of the word, in word
order, as a reflection to the running vector
(`vector = np.dot(vector, self.reflections[w])`). -/
def transform {V : Type} (P : BasePolytope V) (vector : V) (word : List Nat) : V :=
  word.foldl (fun v w => P.reflections w v) vector

/-- `BasePolytope.move`: apply each generator of the word as a lookup in
the vertex action table (`vertex = self.vtable[vertex][w]`). -/
def move {V : Type} (P : BasePolytope V) (vertex : Nat) (word : List Nat) : Nat :=
  word.foldl (fun x w => P.vtable x w) vertex

/-- `BasePolytope.get_orthogonal_stabilizing_mirrors`: the generators `s`
(as singleton words `(s,)`) such that `coxeter_matrix[x][s] == 2` for all
`x` in `subgens` and `active[s]` is false. -/
def get_orthogonal_stabilizing_mirrors {V : Type} (P : BasePolytope V)
    (subgens : List Nat) : List (List Nat) :=
  ((symmetry_gens P).filter fun s =>
    (subgens.all fun x => P.coxeter_matrix x s == 2) && !P.active s).map fun s => [s]

/-- The vertex stabilizer generators of `get_vertices`:
`vgens = [(i,) for i, active in enumerate(self.active) if not active]`. -/
def vgens {V : Type} (P : BasePolytope V) : List (List Nat) :=
  ((symmetry_gens P).filter fun i => !P.active i).map fun i => [i]

/-- The vertex coset words of `get_vertices`:
`self.vwords = CosetTable(gens, rels, vgens).get_words()`. -/
def vwords {V : Type} (P : BasePolytope V) : List (List Nat) :=
  P.cosetWords (symmetry_gens P) P.symmetry_rels (vgens P)

/-- `self.num_vertices = len(self.vwords)`. -/
def num_vertices {V : Type} (P : BasePolytope V) : Nat :=
  (vwords P).length

/-- `self.vertices_coords = tuple(self.transform(self.init_v, w) for w in self.vwords)`. -/
def vertices_coords {V : Type} (P : BasePolytope V) : List V :=
  (vwords P).map fun w => transform P P.init_v w

/-- The Python word `(i, j) * k` (the pair repeated `k` times). -/
def wordPow (i j k : Nat) : List Nat :=
  List.flatten (List.replicate k [i, j])

/-- One iteration of the loop of `get_edges` for mirror `i`: when mirror
`i` is active, enumerate cosets of the subgroup generated by
`[(i,)] + get_orthogonal_stabilizing_mirrors((i,))` and map each word
`w` to the edge `(move(0, w), move(0, (i,) + w))`; when the mirror is
inactive no edge orbit of type `i` is produced. -/
def edge_type {V : Type} (P : BasePolytope V) (i : Nat) : Option (List (Nat × Nat)) :=
  if P.active i then
    some ((P.cosetWords (symmetry_gens P) P.symmetry_rels
            ([i] :: get_orthogonal_stabilizing_mirrors P [i])).map fun w =>
      (move P 0 w, move P 0 (i :: w)))
  else none

/-- `BasePolytope.get_edges`: the per-type edge lists appended to
`self.edge_indices`, in mirror order. -/
def get_edges {V : Type} (P : BasePolytope V) : List (List (Nat × Nat)) :=
  (symmetry_gens P).filterMap fun i => edge_type P i

/-- The base face `f0` built inside `get_faces` for the mirror pair
`(i, j)`: when both mirrors are active, the `2m`-cycle that alternates
`move(0, (i,j)*k)` and `move(0, (j,) + (i,j)*k)`; when exactly one is
active (the `elif` branch, with `m > 2`), the `m`-cycle
`move(0, (i,j)*k)`. -/
def face_f0 {V : Type} (P : BasePolytope V) (i j : Nat) : List Nat :=
  let m := P.coxeter_matrix i j
  if P.active i && P.active j then
    List.flatten ((List.range m).map fun k =>
      [move P 0 (wordPow i j k), move P 0 (j :: wordPow i j k)])
  else if (P.active i || P.active j) && decide (2 < m) then
    (List.range m).map fun k => move P 0 (wordPow i j k)
  else []

/-- One iteration of the loop of `get_faces` for the pair `(i, j)`:
`fgens = [(i,), (j,)] + get_orthogonal_stabilizing_mirrors([i, j])`;
a face orbit is produced unless the `continue` branch is taken, and each
coset word `w` is applied to every vertex of the base face `f0`. -/
def face_type {V : Type} (P : BasePolytope V) (i j : Nat) : Option (List (List Nat)) :=
  let m := P.coxeter_matrix i j
  if (P.active i && P.active j) || ((P.active i || P.active j) && decide (2 < m)) then
    some ((P.cosetWords (symmetry_gens P) P.symmetry_rels
            ([i] :: [j] :: get_orthogonal_stabilizing_mirrors P [i, j])).map fun w =>
      (face_f0 P i j).map fun v => move P v w)
  else none

/-- `itertools.combinations(l, 2)` on a list, in the same order. -/
def combinations2 : List Nat → List (Nat × Nat)
  | [] => []
  | x :: xs => (xs.map fun y => (x, y)) ++ combinations2 xs

/-- `BasePolytope.get_faces`: the per-type face lists appended to
`self.face_indices`, over the generator pairs in combinations order. -/
def get_faces {V : Type} (P : BasePolytope V) : List (List (List Nat)) :=
  (combinations2 (symmetry_gens P)).filterMap fun p => face_type P p.1 p.2

/-- The length validation of `Polyhedra.__init__`:
`if not len(coxeter_diagram) == len(init_dist) == 3: raise ValueError`.
Returns `true` iff the constructor raises. -/
def polyhedra_length_check (diagram_len dist_len : Nat) : Bool :=
  !(diagram_len == dist_len && dist_len == 3)

/-- The length validation of `Polychora.__init__`:
`if not (len(coxeter_diagram) == 6 and len(init_dist) == 4): raise`.
Returns `true` iff the constructor raises. -/
def polychora_length_check (diagram_len dist_len : Nat) : Bool :=
  !(diagram_len == 6 && dist_len == 4)

/-- The length validation of `Polytope5D.__init__`:
`if len(coxeter_diagram) != 10 and len(init_dist) != 5: raise`.
Returns `true` iff the constructor raises. -/
def polytope5d_length_check (diagram_len dist_len : Nat) : Bool :=
  diagram_len != 10 && dist_len != 5

set_option linter.unusedVariables false

/-- `Polytope5D.proj4d` as implemented: rewrites each stored coordinate
vector `v` to `v[:4] / (1.3 - v[-1])`.  The `pole` parameter is accepted
(default `1.3`) but, as in the source, the divisor uses the literal
`1.3` regardless of it. -/
def proj4d (pole : Rat) (coords : List (List Rat)) : List (List Rat) :=
  coords.map fun v => (v.take 4).map fun x => x / (13 / 10 - v.getLastD 0)

/-- Modelled from the spec: the projection `proj4d` as the spec states
it, mapping `v` to `v[0:4] / (pole - v[4])` for the configurable pole
value.  Written from the spec words, for comparison with `proj4d`. -/
def proj4d_spec (pole : Rat) (coords : List (List Rat)) : List (List Rat) :=
  coords.map fun v => (v.take 4).map fun x => x / (pole - v.getLastD 0)

/-- Modelled from the spec: `helpers.get_coxeter_matrix` is not under
`src/`.  For a rank-3 diagram `(d0, d1, d2)` the spec describes a
symmetric integer matrix with diagonal `1` whose off-diagonal entries
are the pairwise angle codes of the diagram, listed in the pair order
`(0,1), (0,2), (1,2)` (matching the diagram lengths 3, 6, 10 used for
ranks 3, 4, 5). -/
def get_coxeter_matrix3 (d0 d1 d2 : Nat) : Nat → Nat → Nat := fun i j =>
  if i = j then 1
  else if (i = 0 ∧ j = 1) ∨ (i = 1 ∧ j = 0) then d0
  else if (i = 0 ∧ j = 2) ∨ (i = 2 ∧ j = 0) then d1
  else d2

/-- The generators set by `Snub.__init__`: `(0, 1, 2, 3)` standing for
`(r, r^-1, s, s^-1)`. -/
def snub_symmetry_gens : List Nat := [0, 1, 2, 3]

/-- The relations set by `Snub.__init__`:
`((0,) * matrix[0][1], (2,) * matrix[1][2], (0, 2) * matrix[0][2], (0, 1), (2, 3))`. -/
def snub_symmetry_rels (coxeter_matrix : Nat → Nat → Nat) : List (List Nat) :=
  [List.replicate (coxeter_matrix 0 1) 0,
   List.replicate (coxeter_matrix 1 2) 2,
   List.flatten (List.replicate (coxeter_matrix 0 2) [0, 2]),
   [0, 1], [2, 3]]

/-- The generators set by `Snub24Cell.__init__`: `tuple(range(6))`,
standing for `(r, r^-1, s, s^-1, t, t^-1)`. -/
def snub24cell_symmetry_gens : List Nat := List.range 6

/-- The relations set by `Snub24Cell.__init__`:
`((0,)*3, (2,)*3, (4,)*3, (0,2)*2, (0,4)*2, (3,4)*2, (0,1), (2,3), (4,5))`. -/
def snub24cell_symmetry_rels : List (List Nat) :=
  [List.replicate 3 0, List.replicate 3 2, List.replicate 3 4,
   List.flatten (List.replicate 2 [0, 2]),
   List.flatten (List.replicate 2 [0, 4]),
   List.flatten (List.replicate 2 [3, 4]),
   [0, 1], [2, 3], [4, 5]]

/-- `Snub.transform`: generator `0` applies `reflections[0]` then
`reflections[1]`; every other generator applies `reflections[1]` then
`reflections[2]`.  The reflection family is the `self.reflections`
state, here a parameter. -/
def snub_transform {V : Type} (reflections : Nat → V → V) (vertex : V)
    (word : List Nat) : V :=
  word.foldl (fun v g =>
    if g = 0 then reflections 1 (reflections 0 v)
    else reflections 2 (reflections 1 v)) vertex

/-- `Snub24Cell.transform`: generator `0` applies `reflections[0]` then
`reflections[1]`; generator `2` applies `reflections[1]` then
`reflections[2]`; every other generator applies `reflections[1]` then
`reflections[3]`. -/
def snub24cell_transform {V : Type} (reflections : Nat → V → V) (vertex : V)
    (word : List Nat) : V :=
  word.foldl (fun v g =>
    if g = 0 then reflections 1 (reflections 0 v)
    else if g = 2 then reflections 2 (reflections 1 v)
    else reflections 3 (reflections 1 v)) vertex

/-- Concrete involutive reflections about the three coordinate planes of
`Rat × Rat × Rat` (the mirror configuration of the Coxeter group with all
mirrors pairwise orthogonal), used to evaluate the transforms on a
concrete instance. -/
def coordRefl : Nat → Rat × Rat × Rat → Rat × Rat × Rat
  | 0, (a, b, c) => (-a, b, c)
  | 1, (a, b, c) => (a, -b, c)
  | _, (a, b, c) => (a, b, -c)

/-- A concrete `BasePolytope` state with all three mirrors active,
Coxeter matrix entries `m01 = 3`, `m02 = m12 = 2`, a two-coset
enumerator stub and a cyclic action table; used to evaluate the orbit
engine at concrete inputs. -/
def Pex : BasePolytope Unit where
  n := 3
  coxeter_matrix := fun i j => if i = j then 1 else if i + j = 1 then 3 else 2
  symmetry_rels := []
  active := fun _ => true
  reflections := fun _ v => v
  init_v := ()
  vtable := fun v g => (v + g + 1) % 5
  cosetWords := fun _ _ _ => [[], [0]]

/-- A concrete `BasePolytope` state with only mirror `0` active (the
vertex-first Wythoff construction), same Coxeter matrix as `Pex`. -/
def Pex2 : BasePolytope Unit where
  n := 3
  coxeter_matrix := fun i j => if i = j then 1 else if i + j = 1 then 3 else 2
  symmetry_rels := []
  active := fun i => i == 0
  reflections := fun _ v => v
  init_v := ()
  vtable := fun v g => (v + g + 1) % 5
  cosetWords := fun _ _ _ => [[], [0]]

/-- Length of a flattened list of two-element blocks. -/
theorem flatten_pairs_length {α : Type} (f g : Nat → α) (l : List Nat) :
    (List.flatten (l.map fun k => [f k, g k])).length = 2 * l.length := by
  induction l with
  | nil => simp
  | cons a t ih => simp [ih]; omega

/-- Indexing a flattened list of two-element blocks: position `2*i` holds
the first member of block `i`, position `2*i + 1` the second. -/
theorem flatten_pairs_getElem {α : Type} (f g : Nat → α) :
    ∀ (l : List Nat) (i k : Nat), l[i]? = some k →
      (List.flatten (l.map fun x => [f x, g x]))[2 * i]? = some (f k) ∧
      (List.flatten (l.map fun x => [f x, g x]))[2 * i + 1]? = some (g k) := by
  intro l
  induction l with
  | nil => intro i k h; simp at h
  | cons a t ih =>
    intro i k h
    simp only [List.map_cons, List.flatten_cons, List.cons_append, List.nil_append]
    cases i with
    | zero =>
      simp at h
      subst h
      simp
    | succ p =>
      simp at h
      have h2 := ih p k h
      have e1 : 2 * (p + 1) = (2 * p) + 1 + 1 := by omega
      rw [e1]
      simp only [List.getElem?_cons_succ]
      exact h2

/-- Length of the word `(a, b) * m`. -/
theorem flatten_replicate_pair_length (a b : Nat) (m : Nat) :
    (List.flatten (List.replicate m [a, b])).length = 2 * m := by
  induction m with
  | zero => rfl
  | succ p ih => simp [List.replicate_succ, ih]; omega

/-- The word `(a, b) * m` alternates `a` at even positions and `b` at odd
positions. -/
theorem flatten_replicate_pair_getElem (a b : Nat) :
    ∀ (m k : Nat), k < 2 * m →
      (List.flatten (List.replicate m [a, b]))[k]? =
        some (if k % 2 = 0 then a else b) := by
  intro m
  induction m with
  | zero => intro k h; omega
  | succ p ih =>
    intro k h
    rw [List.replicate_succ]
    simp only [List.flatten_cons, List.cons_append, List.nil_append]
    match k with
    | 0 => simp
    | 1 => simp
    | k + 2 =>
      have h2 : k < 2 * p := by omega
      have e : (k + 2) % 2 = k % 2 := by omega
      simp only [List.getElem?_cons_succ, e]
      exact ih k h2

/-- Membership characterization of `get_orthogonal_stabilizing_mirrors`. -/
theorem mem_orthogonal_stabilizing_mirrors {V : Type} (P : BasePolytope V)
    (S : List Nat) (s : Nat) :
    [s] ∈ get_orthogonal_stabilizing_mirrors P S ↔
      s ∈ symmetry_gens P ∧ (∀ x ∈ S, P.coxeter_matrix x s = 2) ∧
        P.active s = false := by
  simp only [get_orthogonal_stabilizing_mirrors, List.mem_map, List.mem_filter,
    Bool.and_eq_true, List.all_eq_true, beq_iff_eq, Bool.not_eq_true',
    List.cons.injEq, and_true]
  constructor
  · rintro ⟨a, ⟨ha, h2, h3⟩, rfl⟩
    exact ⟨ha, h2, h3⟩
  · rintro ⟨ha, h2, h3⟩
    exact ⟨s, ⟨ha, h2, h3⟩, rfl⟩

/-- C4: `get_orthogonal_stabilizing_mirrors(S)` returns exactly the
generators `s` with `coxeter_matrix[x][s] == 2` for every `x` in `S` and
`s` inactive; since the Coxeter matrix has `matrix[s][s] == 1` on members
of `S`, no member of `S` is ever returned. -/
theorem orthogonal_stabilizing_mirrors_spec {V : Type} (P : BasePolytope V)
    (S : List Nat) (hdiag : ∀ s ∈ S, P.coxeter_matrix s s = 1) :
    (∀ s, [s] ∈ get_orthogonal_stabilizing_mirrors P S ↔
      s ∈ symmetry_gens P ∧ (∀ x ∈ S, P.coxeter_matrix x s = 2) ∧
        P.active s = false) ∧
    ∀ s ∈ S, [s] ∉ get_orthogonal_stabilizing_mirrors P S := by
  refine ⟨fun s => mem_orthogonal_stabilizing_mirrors P S s, ?_⟩
  intro s hs hmem
  have h := (mem_orthogonal_stabilizing_mirrors P S s).mp hmem
  have h2 := h.2.1 s hs
  have h1 := hdiag s hs
  omega

/-- Witness for C4, on the concrete state `Pex2`. -/
theorem orthogonal_stabilizing_mirrors_spec_w :
    [2] ∈ get_orthogonal_stabilizing_mirrors Pex2 [0] ∧
    [0] ∉ get_orthogonal_stabilizing_mirrors Pex2 [0] := by
  have h := orthogonal_stabilizing_mirrors_spec Pex2 [0] (by decide)
  exact ⟨(h.1 2).mpr (by decide), h.2 0 (by decide)⟩

/-- C3: `get_vertices` invokes the enumerator with the inactive mirrors
as stabilizer generators, sets `num_vertices` to the number of returned
words, and stores as the `k`-th coordinate `transform(init_v, vwords[k])`
(the initial point with the word's generators applied in word order). -/
theorem get_vertices_spec {V : Type} (P : BasePolytope V) :
    (∀ g, [g] ∈ vgens P ↔ g ∈ symmetry_gens P ∧ P.active g = false) ∧
    vwords P = P.cosetWords (symmetry_gens P) P.symmetry_rels (vgens P) ∧
    num_vertices P = (P.cosetWords (symmetry_gens P) P.symmetry_rels (vgens P)).length ∧
    (vertices_coords P).length = num_vertices P ∧
    (∀ (vec : V), transform P vec [] = vec) ∧
    (∀ (vec : V) (g : Nat) (w : List Nat),
      transform P vec (g :: w) = transform P (P.reflections g vec) w) ∧
    ∀ (k : Nat) (w : List Nat), (vwords P)[k]? = some w →
      (vertices_coords P)[k]? = some (transform P P.init_v w) := by
  refine ⟨?_, rfl, rfl, by simp [vertices_coords, num_vertices],
    fun vec => rfl, fun vec g w => rfl, ?_⟩
  · intro g
    simp only [vgens, List.mem_map, List.mem_filter, Bool.not_eq_true',
      List.cons.injEq, and_true]
    constructor
    · rintro ⟨a, ⟨ha, h2⟩, rfl⟩
      exact ⟨ha, h2⟩
    · rintro ⟨ha, h2⟩
      exact ⟨g, ⟨ha, h2⟩, rfl⟩
  · intro k w h
    simp [vertices_coords, List.getElem?_map, h]

/-- Witness for C3, on the concrete state `Pex2`. -/
theorem get_vertices_spec_w :
    (vertices_coords Pex2)[1]? = some (transform Pex2 Pex2.init_v [0]) :=
  (get_vertices_spec Pex2).2.2.2.2.2.2 1 [0] (by decide)

/-- C2: `get_edges` produces an edge orbit of type `i` iff mirror `i` is
active; for an active mirror the enumeration runs with stabilizer
generators `{i}` plus the orthogonal stabilizing mirrors of `{i}`, and
the edge of each returned word `w` is `(move(0, w), move(0, (i,) + w))`. -/
theorem get_edges_spec {V : Type} (P : BasePolytope V) (i : Nat) :
    ((edge_type P i).isSome ↔ P.active i = true) ∧
    (P.active i = false → edge_type P i = none) ∧
    (∀ s, [s] ∈ ([i] :: get_orthogonal_stabilizing_mirrors P [i]) ↔
      s = i ∨ (s ∈ symmetry_gens P ∧ P.coxeter_matrix i s = 2 ∧
        P.active s = false)) ∧
    (P.active i = true →
      edge_type P i = some ((P.cosetWords (symmetry_gens P) P.symmetry_rels
        ([i] :: get_orthogonal_stabilizing_mirrors P [i])).map fun w =>
          (move P 0 w, move P 0 (i :: w)))) ∧
    ∀ el, edge_type P i = some el →
      el.length = (P.cosetWords (symmetry_gens P) P.symmetry_rels
        ([i] :: get_orthogonal_stabilizing_mirrors P [i])).length ∧
      ∀ (k : Nat) (w : List Nat),
        (P.cosetWords (symmetry_gens P) P.symmetry_rels
          ([i] :: get_orthogonal_stabilizing_mirrors P [i]))[k]? = some w →
        el[k]? = some (move P 0 w, move P 0 (i :: w)) := by
  refine ⟨?_, ?_, ?_, ?_, ?_⟩
  · cases h : P.active i <;> simp [edge_type, h]
  · intro h
    simp [edge_type, h]
  · intro s
    constructor
    · intro hs
      rcases List.mem_cons.mp hs with h | h
      · exact Or.inl (by simpa using h)
      · have h2 := (mem_orthogonal_stabilizing_mirrors P [i] s).mp h
        exact Or.inr ⟨h2.1, h2.2.1 i (by simp), h2.2.2⟩
    · intro hs
      rcases hs with rfl | ⟨h1, h2, h3⟩
      · exact List.mem_cons_self _ _
      · refine List.mem_cons_of_mem _
          ((mem_orthogonal_stabilizing_mirrors P [i] s).mpr ⟨h1, ?_, h3⟩)
        intro x hx
        rw [List.mem_singleton.mp hx]
        exact h2
  · intro h
    simp [edge_type, h]
  · intro el hel
    have hact : P.active i = true := by
      by_contra h
      rw [edge_type, if_neg h] at hel
      exact Option.noConfusion hel
    rw [edge_type, if_pos hact] at hel
    obtain rfl : el = _ := (Option.some.injEq _ _).mp hel.symm
    refine ⟨by simp, ?_⟩
    intro k w hk
    simp [List.getElem?_map, hk]

/-- Witness for C2, on the concrete state `Pex2` (mirror 0 active,
mirror 1 inactive). -/
theorem get_edges_spec_w :
    (edge_type Pex2 0).isSome = true ∧
    edge_type Pex2 1 = none ∧
    ([2] ∈ ([0] :: get_orthogonal_stabilizing_mirrors Pex2 [0])) := by
  refine ⟨(get_edges_spec Pex2 0).1.mpr (by decide),
    (get_edges_spec Pex2 1).2.1 (by decide),
    ((get_edges_spec Pex2 0).2.2.1 2).mpr (Or.inr (by decide))⟩

/-- C1: `get_faces` produces a face orbit of type `(i, j)` iff both
mirrors are active or exactly one is active and `m > 2`; with both
active the base face is the `2m`-cycle alternating `move(0, (i,j)^k)`
and `move(0, (j,) + (i,j)^k)` for `k = 0..m-1`; with exactly one active
and `m > 2` it is the `m`-cycle `move(0, (i,j)^k)`; otherwise no face of
that type is produced. -/
theorem get_faces_spec {V : Type} (P : BasePolytope V) (i j : Nat) :
    ((face_type P i j).isSome ↔
      ((P.active i = true ∧ P.active j = true) ∨
       (P.active i ≠ P.active j ∧ 2 < P.coxeter_matrix i j))) ∧
    (P.active i = true → P.active j = true →
      (face_f0 P i j).length = 2 * P.coxeter_matrix i j ∧
      ∀ k, k < P.coxeter_matrix i j →
        (face_f0 P i j)[2 * k]? = some (move P 0 (wordPow i j k)) ∧
        (face_f0 P i j)[2 * k + 1]? = some (move P 0 (j :: wordPow i j k))) ∧
    (P.active i ≠ P.active j → 2 < P.coxeter_matrix i j →
      (face_f0 P i j).length = P.coxeter_matrix i j ∧
      ∀ k, k < P.coxeter_matrix i j →
        (face_f0 P i j)[k]? = some (move P 0 (wordPow i j k))) ∧
    (¬ ((P.active i = true ∧ P.active j = true) ∨
        (P.active i ≠ P.active j ∧ 2 < P.coxeter_matrix i j)) →
      face_type P i j = none) ∧
    ∀ fl, face_type P i j = some fl →
      fl = (P.cosetWords (symmetry_gens P) P.symmetry_rels
        ([i] :: [j] :: get_orthogonal_stabilizing_mirrors P [i, j])).map fun w =>
          (face_f0 P i j).map fun v => move P v w := by
  refine ⟨?_, ?_, ?_, ?_, ?_⟩
  · cases hi : P.active i <;> cases hj : P.active j <;>
      by_cases hm : 2 < P.coxeter_matrix i j <;>
      simp [face_type, hi, hj, hm]
  · intro hi hj
    have hf : face_f0 P i j = List.flatten ((List.range (P.coxeter_matrix i j)).map
        fun k => [move P 0 (wordPow i j k), move P 0 (j :: wordPow i j k)]) := by
      simp [face_f0, hi, hj]
    rw [hf]
    refine ⟨by rw [flatten_pairs_length]; simp, ?_⟩
    intro k hk
    exact flatten_pairs_getElem _ _ (List.range (P.coxeter_matrix i j)) k k
      (List.getElem?_range hk)
  · intro hne hm
    have hf : face_f0 P i j = (List.range (P.coxeter_matrix i j)).map
        fun k => move P 0 (wordPow i j k) := by
      cases hi : P.active i <;> cases hj : P.active j <;>
        simp [hi, hj] at hne ⊢ <;> simp [face_f0, hi, hj, hm]
    rw [hf]
    refine ⟨by simp, ?_⟩
    intro k hk
    simp [List.getElem?_map, List.getElem?_range hk]
  · intro h
    cases hi : P.active i <;> cases hj : P.active j <;>
      by_cases hm : 2 < P.coxeter_matrix i j <;>
      simp [hi, hj, hm] at h <;> simp [face_type, hi, hj, hm]
  · intro fl hfl
    rw [face_type] at hfl
    by_cases hc : (P.active i && P.active j) = true ∨
        ((P.active i || P.active j) && decide (2 < P.coxeter_matrix i j)) = true
    · rcases hc with hc | hc
      · rw [if_pos (by simp [hc])] at hfl
        exact ((Option.some.injEq _ _).mp hfl).symm
      · rw [if_pos (by simp_all)] at hfl
        exact ((Option.some.injEq _ _).mp hfl).symm
    · rw [if_neg (by cases h1 : P.active i && P.active j <;> simp_all)] at hfl
      exact absurd hfl (by simp)

/-- Witness for C1, on the concrete state `Pex` (all mirrors active,
`coxeter_matrix[0][1] = 3`). -/
theorem get_faces_spec_w :
    (face_f0 Pex 0 1).length = 2 * Pex.coxeter_matrix 0 1 ∧
    (face_f0 Pex 0 1)[1]? = some (move Pex 0 (1 :: wordPow 0 1 0)) := by
  have h := (get_faces_spec Pex 0 1).2.1 (by decide) (by decide)
  exact ⟨h.1, (h.2 0 (by decide)).2⟩

/-- C5 (code bug): for the input with diagram length 9 and distance
length 5 — where the claim requires a dimension-mismatch error since
the diagram length differs from 10 — the check of `Polytope5D.__init__`
does not raise, because it combines the two length conditions with a
logical AND. -/
theorem polytope5d_check_misses_mismatch :
    polytope5d_length_check 9 5 = false ∧ ((9 : Nat) ≠ 10 ∨ (5 : Nat) ≠ 5) := by
  decide

/-- C6 (code bug): `proj4d` ignores its `pole` argument.  At pole `2`
and stored vertex `(1, 0, 0, 0, 0)` the code divides by the literal
`1.3` and produces `(10/13, 0, 0, 0)`, while the claimed mapping
`v[0:4] / (pole - v[4])` gives `(1/2, 0, 0, 0)`. -/
theorem proj4d_ignores_pole :
    proj4d 2 [[1, 0, 0, 0, 0]] = [[10 / 13, 0, 0, 0]] ∧
    proj4d_spec 2 [[1, 0, 0, 0, 0]] = [[1 / 2, 0, 0, 0]] ∧
    proj4d 2 [[1, 0, 0, 0, 0]] ≠ proj4d_spec 2 [[1, 0, 0, 0, 0]] := by
  refine ⟨?_, ?_, ?_⟩ <;> norm_num [proj4d, proj4d_spec]

/-- C7 counterexample: for the rank-3 diagram `(5, 3, 4)` — accepted by
the `Snub` constructor, which only checks the lengths — the relation set
is not `r^p = 1`, `s^q = 1`, `(rs)^2 = 1` plus the inverse relations
with `p = matrix[0][1]`, `q = matrix[1][2]`: the third relator repeats
`(0, 2)` three times (`matrix[0][2] = 3`), not twice. -/
theorem snub_rels_rs_power_counterexample :
    snub_symmetry_rels (get_coxeter_matrix3 5 3 4) ≠
      [List.replicate ((get_coxeter_matrix3 5 3 4) 0 1) 0,
       List.replicate ((get_coxeter_matrix3 5 3 4) 1 2) 2,
       List.flatten (List.replicate 2 [0, 2]), [0, 1], [2, 3]] := by
  decide

/-- C7 (amended): for every rank-3 diagram `(d0, d1, d2)`, the `Snub`
relation set is exactly `r^p = 1` (`p = matrix[0][1] = d0`), `s^q = 1`
(`q = matrix[1][2] = d2`), `(rs)^matrix[0][2] = 1` — the pair `(0, 2)`
repeated `matrix[0][2] = d1` times, which is `(rs)^2 = 1` exactly when
the mirrors 0 and 2 are orthogonal — plus the inverse relations
`(0, 1)` and `(2, 3)`. -/
theorem snub_rels_spec (d0 d1 d2 : Nat) :
    (get_coxeter_matrix3 d0 d1 d2) 0 1 = d0 ∧
    (get_coxeter_matrix3 d0 d1 d2) 1 2 = d2 ∧
    (get_coxeter_matrix3 d0 d1 d2) 0 2 = d1 ∧
    (snub_symmetry_rels (get_coxeter_matrix3 d0 d1 d2)).length = 5 ∧
    (snub_symmetry_rels (get_coxeter_matrix3 d0 d1 d2))[0]? =
      some (List.replicate d0 0) ∧
    (snub_symmetry_rels (get_coxeter_matrix3 d0 d1 d2))[1]? =
      some (List.replicate d2 2) ∧
    (∃ r, (snub_symmetry_rels (get_coxeter_matrix3 d0 d1 d2))[2]? = some r ∧
      r.length = 2 * d1 ∧
      ∀ k, k < 2 * d1 → r[k]? = some (if k % 2 = 0 then 0 else 2)) ∧
    (snub_symmetry_rels (get_coxeter_matrix3 d0 d1 d2))[3]? = some [0, 1] ∧
    (snub_symmetry_rels (get_coxeter_matrix3 d0 d1 d2))[4]? = some [2, 3] := by
  refine ⟨rfl, rfl, rfl, rfl, rfl, rfl, ?_, rfl, rfl⟩
  refine ⟨List.flatten (List.replicate d1 [0, 2]), rfl,
    flatten_replicate_pair_length 0 2 d1, ?_⟩
  intro k hk
  exact flatten_replicate_pair_getElem 0 2 d1 k hk

/-- Witness for the amended C7, on the diagram `(5, 3, 4)`. -/
theorem snub_rels_spec_w :
    ∃ r, (snub_symmetry_rels (get_coxeter_matrix3 5 3 4))[2]? = some r ∧
      r[1]? = some 2 := by
  obtain ⟨r, h1, h2, h3⟩ := (snub_rels_spec 5 3 4).2.2.2.2.2.2.1
  exact ⟨r, h1, h3 1 (by omega)⟩

/-- C8: `Snub24Cell.__init__` sets the six generators `0..5` and exactly
the nine relators `r^3`, `s^3`, `t^3`, `(rs)^2`, `(rt)^2`, `(s^-1 t)^2`
(encoded as `(3, 4, 3, 4)`) plus the three inverse pairs. -/
theorem snub24cell_presentation_spec :
    snub24cell_symmetry_gens = [0, 1, 2, 3, 4, 5] ∧
    snub24cell_symmetry_rels =
      [[0, 0, 0], [2, 2, 2], [4, 4, 4],
       [0, 2, 0, 2], [0, 4, 0, 4], [3, 4, 3, 4],
       [0, 1], [2, 3], [4, 5]] := by
  decide

/-- C9: the `Polyhedra` constructor raises iff the diagram length or the
distance length differs from 3, and the `Polychora` constructor raises
iff the diagram length differs from 6 or the distance length differs
from 4. -/
theorem dimension_check_spec (diagram_len dist_len : Nat) :
    (polyhedra_length_check diagram_len dist_len = true ↔
      (diagram_len ≠ 3 ∨ dist_len ≠ 3)) ∧
    (polychora_length_check diagram_len dist_len = true ↔
      (diagram_len ≠ 6 ∨ dist_len ≠ 4)) := by
  refine ⟨?_, ?_⟩ <;>
    simp only [polyhedra_length_check, polychora_length_check, Bool.not_eq_eq_eq_not,
      Bool.not_true, Bool.and_eq_false_imp, beq_iff_eq, beq_eq_false_iff_ne] <;>
    omega

/-- C10: in `Snub.transform` every generator other than `0` — including
the formal inverses `1` and `3` — expands to the reflection pair
`(ρ1, ρ2)`, so `transform(v, (1,)) = transform(v, (2,))`; in
`Snub24Cell.transform` every generator outside `{0, 2}` expands to
`(ρ1, ρ3)`; and applying `transform` to the relator word `(0, 1)`
(`r·r^-1`, the group identity) is not in general the identity on
coordinates, witnessed by concrete coordinate-plane reflections. -/
theorem snub_transform_inverse_collapse :
    (∀ (V : Type) (reflections : Nat → V → V) (v : V),
      snub_transform reflections v [1] = snub_transform reflections v [2]) ∧
    (∀ (V : Type) (reflections : Nat → V → V) (v : V) (g : Nat), g ≠ 0 →
      snub_transform reflections v [g] = reflections 2 (reflections 1 v)) ∧
    (∀ (V : Type) (reflections : Nat → V → V) (v : V) (g : Nat),
      g ≠ 0 → g ≠ 2 →
      snub24cell_transform reflections v [g] = reflections 3 (reflections 1 v)) ∧
    snub_transform coordRefl (1, 1, 1) [0, 1] ≠ (1, 1, 1) := by
  refine ⟨fun W r v => rfl, ?_, ?_, by decide⟩
  · intro W r v g hg
    simp [snub_transform, hg]
  · intro W r v g hg hg2
    simp [snub24cell_transform, hg, hg2]

/-- Witness for C10, evaluating the inverse generator `3` (`s^-1`) on a
concrete vector with the coordinate-plane reflections. -/
theorem snub_transform_inverse_collapse_w :
    snub_transform coordRefl ((1 : Rat), (2 : Rat), (3 : Rat)) [3] =
      coordRefl 2 (coordRefl 1 ((1 : Rat), (2 : Rat), (3 : Rat))) :=
  snub_transform_inverse_collapse.2.1 _ coordRefl _ 3 (by decide)

end Polytopes
